import Mathlib

/-!
Verification of the report/commit matcher in `is_snyk_for.py`.

The development shallowly embeds the program's core:

* `PatchBlocks.__init__` / `_get_blocks` / `range_exists` — the hunk-header
  scanner and the containment query (class `PatchBlocks`);
* `snyk_results` — extraction of `(filename, (startLine, endLine))` findings
  from a report object;
* the verification loop in `main` (lines 153–159 of the source).

Patch text is modelled as `List Char`, scanned by index exactly as the
Python code does (outer loop with a `new_line` flag, inner loop looking for
the closing `@@`).  Structural-lookup failures that would raise Python
exceptions (`KeyError` on a missing report key, a non-list where iteration
happens) are modelled by `Option`: `none` is a propagated exception, never a
boolean verdict.  Report line numbers are Python ints, modelled as `Int`.
-/

namespace IsSnykFor

/-- Decimal value of a digit string, as Python `int()` computes it on the
regex groups (the groups are `[0-9]+`, so no sign handling is involved). -/
def digitsToNat (ds : List Char) : Nat :=
  ds.foldl (fun n c => 10 * n + (c.toNat - 48)) 0

/-- Greedy scan of a maximal `[0-9]+` prefix: returns the digits consumed
and the remainder of the input. -/
def munchDigits : List Char → (List Char × List Char)
  | [] => ([], [])
  | c :: rest =>
    if c.isDigit then
      let (ds, r) := munchDigits rest
      (c :: ds, r)
    else ([], c :: rest)

/-- The regex match of `PatchBlocks._MATCH_PROG`, i.e. Python
`re.match('@@ -[0-9]+,[0-9]+ \\+([0-9]+),([0-9]+) @@', block)`: the pattern
must match an initial segment of `block`; on success the result is
`(int(group 1), int(group 2))` — the two captured groups are `newStart` and
`newCount` of the `+newStart,newCount` field, stored literally by
`PatchBlocks.__init__` (line 84).  Greedy `[0-9]+` followed by a non-digit
literal is maximal munch, so no backtracking is needed. -/
def matchHunk (block : List Char) : Option (Int × Int) :=
  match block with
  | '@' :: '@' :: ' ' :: '-' :: r0 =>
    let (a, r1) := munchDigits r0
    if a = [] then none else
    match r1 with
    | ',' :: r2 =>
      let (b, r3) := munchDigits r2
      if b = [] then none else
      match r3 with
      | ' ' :: '+' :: r4 =>
        let (c, r5) := munchDigits r4
        if c = [] then none else
        match r5 with
        | ',' :: r6 =>
          let (d, r7) := munchDigits r6
          if d = [] then none else
          match r7 with
          | ' ' :: '@' :: '@' :: _ => some ((digitsToNat c : Int), (digitsToNat d : Int))
          | _ => none
        | _ => none
      | _ => none
    | _ => none
  | _ => none

/-- The inner loop of `_get_blocks` (lines 93–99): starting at absolute
index `j` (the list argument is `p.drop j`), find the first `j' ≥ j` with
`j' + 1 < p.length`, `p[j'] = '@'` and `p[j'+1] = '@'`; `none` when the text
ends first. -/
def findCloseAux : List Char → Nat → Option Nat
  | c1 :: c2 :: rest, j => if c1 = '@' ∧ c2 = '@' then some j else findCloseAux (c2 :: rest) (j + 1)
  | _, _ => none

/-- The outer loop of `_get_blocks` (lines 86–107): index `i`, flag
`new_line`, loop guard `i + 1 < len(patch)`.  At a freshly-started line an
opening `@@` triggers the inner scan; when the closing `@@` is found the
block `patch[i:j+2]` is yielded and scanning resumes at `j+2` with
`new_line = False`; when it is not found, the loop falls through to
`new_line = False` at the same `i`.  `fuel` is a structural-termination
device only: every Python loop iteration consumes one unit, and the initial
supply (`getBlocks`) exceeds the total number of iterations. -/
def getBlocksAux (p : List Char) : Nat → Nat → Bool → List (List Char)
  | 0, _, _ => []
  | fuel + 1, i, nl =>
    if i + 1 < p.length then
      if nl then
        if p[i]! = '@' ∧ p[i+1]! = '@' then
          match findCloseAux (p.drop (i+2)) (i+2) with
          | some j => ((p.drop i).take (j + 2 - i)) :: getBlocksAux p fuel (j + 2) false
          | none => getBlocksAux p fuel i false
        else getBlocksAux p fuel (i + 1) false
      else if p[i]! = '\n' then getBlocksAux p fuel (i + 1) true
      else getBlocksAux p fuel (i + 1) false
    else []

/-- `_get_blocks(patch)` as a list: the generator run to completion. -/
def getBlocks (p : List Char) : List (List Char) :=
  getBlocksAux p (2 * p.length + 2) 0 true

/-- `PatchBlocks.__init__` (lines 79–84): `self._blocks`, the list of
`(int(m.group(1)), int(m.group(2)))` for every yielded block the regex
matches. -/
def patchBlocks (patch : List Char) : List (Int × Int) :=
  (getBlocks patch).filterMap matchHunk

/-- `PatchBlocks.range_exists` (lines 109–113): true iff some stored block
`(s, e)` has `s ≤ start` and `end ≤ e`. -/
def rangeExists (blocks : List (Int × Int)) (start fin : Int) : Bool :=
  blocks.any fun b => decide (b.1 ≤ start) && decide (fin ≤ b.2)

example : patchBlocks ("@@ -1,5 +10,20 @@".toList) = [(10, 20)] := by decide
example : patchBlocks ("@@ -1,2 +1,3 @@\n...\n@@ -10,2 +10,500 @@".toList)
    = [(1, 3), (10, 500)] := by decide
example : rangeExists [(1, 3), (10, 500)] 2 3 = true := by decide
example : patchBlocks ("x@@ -1,1 +2,3 @@".toList) = [] := by decide

/-- JSON-like values, the shape of the objects `json.load`/`json.loads`
hand to `snyk_results` and `main`. -/
inductive Json where
  | str : String → Json
  | num : Int → Json
  | bool : Bool → Json
  | null : Json
  | arr : List Json → Json
  | obj : List (String × Json) → Json

/-- Python `d[k]` on a report node: `some` on a dict that has the key;
`none` models the `KeyError`/`TypeError` the source does not catch. -/
def jLookup : Json → String → Option Json
  | Json.obj kvs, k => kvs.lookup k
  | _, _ => none

/-- Python `for x in v`: iteration requires a list; anything else raises. -/
def jArr : Json → Option (List Json)
  | Json.arr l => some l
  | _ => none

/-- A string leaf, as the `uri` field is used (a dictionary key). -/
def jStr : Json → Option String
  | Json.str s => some s
  | _ => none

/-- An integer leaf, as `startLine`/`endLine` are used (compared to block
bounds). -/
def jInt : Json → Option Int
  | Json.num n => some n
  | _ => none

/-- The body of `snyk_results` for one location (lines 122–125): read
`physicalLocation.artifactLocation.uri` and `physicalLocation.region`'s
`startLine`/`endLine`; a missing key propagates as `none`. -/
def getFinding (loc : Json) : Option (String × Int × Int) := do
  let pl ← jLookup loc "physicalLocation"
  let al ← jLookup pl "artifactLocation"
  let uri ← jStr (← jLookup al "uri")
  let region ← jLookup pl "region"
  let s ← jInt (← jLookup region "startLine")
  let e ← jInt (← jLookup region "endLine")
  pure (uri, s, e)

/-- `snyk_results` (lines 116–125) run to completion: the flattened list of
`(filename, (startLine, endLine))` over `runs → results → locations`, or
`none` when a structural lookup fails anywhere in the report. -/
def snykResults (report : Json) : Option (List (String × Int × Int)) := do
  let runs ← jArr (← jLookup report "runs")
  let nested ← runs.mapM fun run => do
    let results ← jArr (← jLookup run "results")
    results.mapM fun res => do
      let locs ← jArr (← jLookup res "locations")
      locs.mapM getFinding
  pure nested.flatten.flatten

/-- The verification loop of `main` (lines 153–159): findings in order; a
filename absent from `commit_files` returns `False`; a present filename
whose range fails `range_exists` returns `False`; otherwise continue, and
`True` after the last finding.  `commitFiles` is the
`filename → PatchBlocks._blocks` mapping built on line 143. -/
def verifyFindings (commitFiles : List (String × List (Int × Int))) :
    List (String × Int × Int) → Bool
  | [] => true
  | (fn, s, e) :: rest =>
    match commitFiles.lookup fn with
    | some blocks =>
      if rangeExists blocks s e then verifyFindings commitFiles rest else false
    | none => false

/-- The verification core of `main` on an already-built changeset and an
already-fetched report: extract the findings, then run the loop.  `none` is
a propagated structural-lookup exception, never a verdict. -/
def verify (commitFiles : List (String × List (Int × Int))) (report : Json) :
    Option Bool :=
  (snykResults report).map (verifyFindings commitFiles)

/-- A SARIF-shaped location node, for concrete witnesses. -/
def sampleLoc (uri : String) (s e : Int) : Json :=
  Json.obj [("physicalLocation", Json.obj
    [("artifactLocation", Json.obj [("uri", Json.str uri)]),
     ("region", Json.obj [("startLine", Json.num s), ("endLine", Json.num e)])])]

/-- A report with one run, one result and the given locations. -/
def sampleReport (locs : List Json) : Json :=
  Json.obj [("runs", Json.arr [Json.obj [("results", Json.arr
    [Json.obj [("locations", Json.arr locs)]])]])]

example : snykResults (sampleReport [sampleLoc "a.py" 1 2]) = some [("a.py", 1, 2)] := rfl
example : verify [("a.py", [(1, 3)])] (sampleReport [sampleLoc "a.py" 1 2]) = some true := rfl
example : verify [("a.py", [(1, 3)])] (sampleReport [sampleLoc "b.py" 1 2]) = some false := rfl
example : verify [("a.py", [(1, 3)])] (Json.obj []) = none := rfl
example : verify [] (sampleReport []) = some true := rfl

/-- One finding fails: its file is not in the changeset, or its range is
not contained in any of its file's stored blocks.  This is exactly the
condition on which the loop in `main` returns `False`. -/
def findingFails (cf : List (String × List (Int × Int))) (f : String × Int × Int) : Prop :=
  cf.lookup f.1 = none ∨
    ∃ blocks, cf.lookup f.1 = some blocks ∧ rangeExists blocks f.2.1 f.2.2 = false

/-- The per-finding check as a boolean: file present and range contained. -/
def checkOne (cf : List (String × List (Int × Int))) (f : String × Int × Int) : Bool :=
  match cf.lookup f.1 with
  | some blocks => rangeExists blocks f.2.1 f.2.2
  | none => false

theorem munchDigits_cons_digit (c : Char) (rest : List Char) (h : c.isDigit) :
    munchDigits (c :: rest) = (c :: (munchDigits rest).1, (munchDigits rest).2) := by
  simp [munchDigits, h]

theorem munchDigits_exact (a : List Char) (x : Char) (r : List Char)
    (ha : ∀ y ∈ a, y.isDigit) (hx : ¬ x.isDigit) :
    munchDigits (a ++ x :: r) = (a, x :: r) := by
  induction a with
  | nil => simp [munchDigits, hx]
  | cons c cs ih =>
    have hc : c.isDigit := ha c (by simp)
    have hcs : ∀ y ∈ cs, y.isDigit := fun y hy => ha y (by simp [hy])
    simp [munchDigits_cons_digit c _ hc, ih hcs]

theorem verifyFindings_eq_all (cf : List (String × List (Int × Int)))
    (fs : List (String × Int × Int)) :
    verifyFindings cf fs = fs.all (checkOne cf) := by
  induction fs with
  | nil => rfl
  | cons f rest ih =>
    obtain ⟨fn, s, e⟩ := f
    rw [verifyFindings, List.all_cons]
    cases hl : cf.lookup fn with
    | none => simp [checkOne, hl]
    | some blocks =>
      cases hr : rangeExists blocks s e with
      | false => simp [checkOne, hl, hr]
      | true => simp [checkOne, hl, hr, ih]

theorem checkOne_eq_false_iff (cf : List (String × List (Int × Int)))
    (f : String × Int × Int) :
    checkOne cf f = false ↔ findingFails cf f := by
  cases hl : cf.lookup f.1 with
  | none => simp [checkOne, findingFails, hl]
  | some blocks => simp [checkOne, findingFails, hl]

/-- C2: `range_exists(start, end)` is true iff a single stored range fully
nests the query (`r.start ≤ start` and `end ≤ r.end`); partial overlap gets
no credit and an empty index answers false to every query. -/
theorem range_exists_iff_nested (blocks : List (Int × Int)) (s e : Int) :
    (rangeExists blocks s e = true ↔ ∃ r ∈ blocks, r.1 ≤ s ∧ e ≤ r.2) ∧
    rangeExists [] s e = false := by
  refine ⟨?_, rfl⟩
  simp [rangeExists]

/-- C3 counterexample: parsing the two-hunk patch stores `(1, 3)` and
`(10, 500)`, but the query `(2, 3)` PASSES containment (it is nested in the
stored range `(1, 3)`), contradicting the claim that it fails. -/
theorem two_hunk_query_counterexample :
    patchBlocks ("@@ -1,2 +1,3 @@\n...\n@@ -10,2 +10,500 @@".toList)
      = [(1, 3), (10, 500)] ∧
    rangeExists (patchBlocks ("@@ -1,2 +1,3 @@\n...\n@@ -10,2 +10,500 @@".toList))
      2 3 = true := by
  decide

/-- C3 (amended): the two-hunk patch yields exactly the ranges `(1, 3)` and
`(10, 500)`; the query `(10, 500)` passes containment, and the query
`(2, 3)` also passes, being nested in the stored range `(1, 3)`. -/
theorem two_hunk_patch_queries :
    patchBlocks ("@@ -1,2 +1,3 @@\n...\n@@ -10,2 +10,500 @@".toList)
      = [(1, 3), (10, 500)] ∧
    rangeExists (patchBlocks ("@@ -1,2 +1,3 @@\n...\n@@ -10,2 +10,500 @@".toList))
      10 500 = true ∧
    rangeExists (patchBlocks ("@@ -1,2 +1,3 @@\n...\n@@ -10,2 +10,500 @@".toList))
      2 3 = true := by
  decide

theorem matchHunk_header (a b c d rest : List Char)
    (ha : a ≠ []) (hb : b ≠ []) (hc : c ≠ []) (hd : d ≠ [])
    (ha2 : ∀ x ∈ a, x.isDigit) (hb2 : ∀ x ∈ b, x.isDigit)
    (hc2 : ∀ x ∈ c, x.isDigit) (hd2 : ∀ x ∈ d, x.isDigit) :
    matchHunk ('@' :: '@' :: ' ' :: '-' ::
        (a ++ ',' :: (b ++ ' ' :: '+' :: (c ++ ',' :: (d ++ ' ' :: '@' :: '@' :: rest)))))
      = some ((digitsToNat c : Int), (digitsToNat d : Int)) := by
  have h1 := munchDigits_exact a ','
    (b ++ ' ' :: '+' :: (c ++ ',' :: (d ++ ' ' :: '@' :: '@' :: rest))) ha2 (by decide)
  have h2 := munchDigits_exact b ' '
    ('+' :: (c ++ ',' :: (d ++ ' ' :: '@' :: '@' :: rest))) hb2 (by decide)
  have h3 := munchDigits_exact c ','
    (d ++ ' ' :: '@' :: '@' :: rest) hc2 (by decide)
  have h4 := munchDigits_exact d ' ' ('@' :: '@' :: rest) hd2 (by decide)
  simp [matchHunk, h1, h2, h3, h4, ha, hb, hc, hd]

/-- C1: the regex groups are stored literally: a block spelling the grammar
`@@ -a,b +c,d @@` (digit groups `a,b,c,d`, anything after the closing `@@`)
is recorded as `(int(c), int(d))` — the end field is `newCount` itself, not
`newStart + newCount - 1`; every stored range arises as such a match on a
scanned block; and the single-hunk patch `@@ -1,5 +10,20 @@` yields exactly
the one range `(10, 20)`. -/
theorem hunk_header_stores_literal_fields :
    (∀ a b c d rest : List Char, a ≠ [] → b ≠ [] → c ≠ [] → d ≠ [] →
      (∀ x ∈ a, x.isDigit) → (∀ x ∈ b, x.isDigit) →
      (∀ x ∈ c, x.isDigit) → (∀ x ∈ d, x.isDigit) →
      matchHunk ('@' :: '@' :: ' ' :: '-' ::
          (a ++ ',' :: (b ++ ' ' :: '+' :: (c ++ ',' :: (d ++ ' ' :: '@' :: '@' :: rest)))))
        = some ((digitsToNat c : Int), (digitsToNat d : Int))) ∧
    (∀ patch r, r ∈ patchBlocks patch →
      ∃ block ∈ getBlocks patch, matchHunk block = some r) ∧
    patchBlocks ("@@ -1,5 +10,20 @@".toList) = [(10, 20)] := by
  refine ⟨matchHunk_header, ?_, by decide⟩
  intro patch r hr
  exact List.mem_filterMap.mp hr

theorem hunk_header_stores_literal_fields_witness :
    matchHunk ('@' :: '@' :: ' ' :: '-' ::
        (['1'] ++ ',' :: (['5'] ++ ' ' :: '+' ::
          (['1', '0'] ++ ',' :: (['2', '0'] ++ ' ' :: '@' :: '@' :: ([] : List Char))))))
      = some (10, 20) := by
  have h := hunk_header_stores_literal_fields.1 ['1'] ['5'] ['1', '0'] ['2', '0'] []
    (by decide) (by decide) (by decide) (by decide)
    (by decide) (by decide) (by decide) (by decide)
  exact h

theorem getBlocksAux_lineStart (p : List Char) (fuel : Nat) :
    ∀ (i : Nat) (nl : Bool),
      (nl = true → i = 0 ∨ (0 < i ∧ p[i - 1]! = '\n')) →
      ∀ b ∈ getBlocksAux p fuel i nl,
        ∃ k m, (k = 0 ∨ (0 < k ∧ p[k - 1]! = '\n')) ∧ b = (p.drop k).take m := by
  induction fuel with
  | zero => intro i nl _ b hb; simp [getBlocksAux] at hb
  | succ fuel ih =>
    intro i nl hinv b hb
    rw [getBlocksAux] at hb
    split at hb
    · split at hb
      · rename_i hnl
        split at hb
        · split at hb
          · rename_i j _
            rcases List.mem_cons.mp hb with h | h
            · exact ⟨i, j + 2 - i, hinv hnl, h⟩
            · exact ih _ false (by simp) b h
          · exact ih _ false (by simp) b hb
        · exact ih _ false (by simp) b hb
      · split at hb
        · rename_i hn
          refine ih _ true ?_ b hb
          intro _
          exact Or.inr ⟨Nat.succ_pos i, by simpa using hn⟩
        · exact ih _ false (by simp) b hb
    · simp at hb

/-- C9: an `@@` opens a recognized hunk region only at a freshly-started
line: every stored range comes from a block cut out of the patch at an
offset `k` that is `0` or immediately preceded by a newline; and the patch
`x@@ -1,1 +2,3 @@`, whose only `@@ ... @@` region opens mid-line, yields no
stored range at all. -/
theorem hunk_recognized_only_at_line_start :
    (∀ (p : List Char) (r : Int × Int), r ∈ patchBlocks p →
      ∃ k m, (k = 0 ∨ (0 < k ∧ p[k - 1]! = '\n')) ∧
        matchHunk ((p.drop k).take m) = some r) ∧
    patchBlocks ("x@@ -1,1 +2,3 @@".toList) = [] := by
  refine ⟨?_, by decide⟩
  intro p r hr
  obtain ⟨b, hb, hmatch⟩ := List.mem_filterMap.mp hr
  obtain ⟨k, m, hk, hbeq⟩ :=
    getBlocksAux_lineStart p (2 * p.length + 2) 0 true (fun _ => Or.inl rfl) b hb
  exact ⟨k, m, hk, hbeq ▸ hmatch⟩

theorem hunk_recognized_only_at_line_start_witness :
    ∃ k m, (k = 0 ∨ (0 < k ∧ ("@@ -1,5 +10,20 @@".toList)[k - 1]! = '\n')) ∧
      matchHunk ((("@@ -1,5 +10,20 @@".toList).drop k).take m) = some ((10 : Int), 20) :=
  hunk_recognized_only_at_line_start.1 ("@@ -1,5 +10,20 @@".toList) (10, 20) (by decide)

theorem matchHunk_nonneg (b : List Char) (r : Int × Int)
    (h : matchHunk b = some r) : 0 ≤ r.1 ∧ 0 ≤ r.2 := by
  obtain ⟨s, e⟩ := r
  unfold matchHunk at h
  repeat' split at h
  all_goals simp_all
  obtain ⟨hs, he⟩ := h
  constructor <;> omega

/-- C8 counterexample: the patch `@@ -1,1 +10,0 @@` + newline +
`@@ -1,1 +0,5 @@` stores the ranges `(10, 0)` — violating `start ≤ end` and
`end ≥ 1` — and `(0, 5)` — violating `start ≥ 1`. -/
theorem stored_range_invariant_counterexample :
    patchBlocks ("@@ -1,1 +10,0 @@\n@@ -1,1 +0,5 @@".toList) = [(10, 0), (0, 5)] ∧
    ¬ (∀ r ∈ patchBlocks ("@@ -1,1 +10,0 @@\n@@ -1,1 +0,5 @@".toList),
        r.1 ≤ r.2 ∧ 1 ≤ r.1 ∧ 1 ≤ r.2) := by
  decide

/-- C8 (amended): every stored range has nonnegative components — both are
parsed decimal numerals — but neither `start ≤ end` nor `start ≥ 1` nor
`end ≥ 1` holds in general, because the stored pair is `(newStart, newCount)`
verbatim. -/
theorem stored_range_components_nonneg (patch : List Char) (r : Int × Int)
    (h : r ∈ patchBlocks patch) : 0 ≤ r.1 ∧ 0 ≤ r.2 := by
  obtain ⟨b, _, hmatch⟩ := List.mem_filterMap.mp h
  exact matchHunk_nonneg b r hmatch

theorem stored_range_components_nonneg_witness :
    0 ≤ ((10 : Int), (20 : Int)).1 ∧ 0 ≤ ((10 : Int), (20 : Int)).2 :=
  stored_range_components_nonneg ("@@ -1,5 +10,20 @@".toList) (10, 20) (by decide)

theorem verifyFindings_false_of_missing (cf : List (String × List (Int × Int)))
    (fs : List (String × Int × Int)) (f : String × Int × Int)
    (hf : f ∈ fs) (hmiss : cf.lookup f.1 = none) :
    verifyFindings cf fs = false := by
  rw [verifyFindings_eq_all]
  cases hall : fs.all (checkOne cf) with
  | false => rfl
  | true =>
    have := List.all_eq_true.mp hall f hf
    simp [checkOne, hmiss] at this

/-- C4: a finding whose filename is not a key of the changeset makes the
overall verification `False` (the normal boolean, not a propagated
exception), whatever the other findings are. -/
theorem missing_file_fails_verification
    (cf : List (String × List (Int × Int))) (report : Json)
    (fs : List (String × Int × Int)) (f : String × Int × Int)
    (hres : snykResults report = some fs) (hf : f ∈ fs)
    (hmiss : cf.lookup f.1 = none) :
    verify cf report = some false := by
  rw [verify, hres, Option.map_some', verifyFindings_false_of_missing cf fs f hf hmiss]

theorem missing_file_fails_verification_witness :
    verify [("a.py", [(1, 3)])] (sampleReport [sampleLoc "b.py" 1 2]) = some false :=
  missing_file_fails_verification [("a.py", [(1, 3)])]
    (sampleReport [sampleLoc "b.py" 1 2]) [("b.py", 1, 2)] ("b.py", 1, 2)
    rfl (by decide) rfl

theorem verifyFindings_true_of_all_pass (cf : List (String × List (Int × Int)))
    (fs : List (String × Int × Int))
    (hpass : ∀ f ∈ fs, ∃ blocks, cf.lookup f.1 = some blocks ∧
      rangeExists blocks f.2.1 f.2.2 = true) :
    verifyFindings cf fs = true := by
  rw [verifyFindings_eq_all, List.all_eq_true]
  intro f hf
  obtain ⟨blocks, hl, hr⟩ := hpass f hf
  simp [checkOne, hl, hr]

/-- C5: a report extracting zero findings verifies `True` against every
changeset (the empty conjunction), and whenever every finding's file is
present and its range contained, the result is `True`. -/
theorem all_findings_pass_verification_true
    (cf : List (String × List (Int × Int))) (report : Json) :
    (snykResults report = some [] → verify cf report = some true) ∧
    (∀ fs, snykResults report = some fs →
      (∀ f ∈ fs, ∃ blocks, cf.lookup f.1 = some blocks ∧
        rangeExists blocks f.2.1 f.2.2 = true) →
      verify cf report = some true) := by
  constructor
  · intro h
    rw [verify, h, Option.map_some']
    rfl
  · intro fs h hpass
    rw [verify, h, Option.map_some', verifyFindings_true_of_all_pass cf fs hpass]

theorem all_findings_pass_verification_true_witness :
    verify [("a.py", [(1, 3)])] (sampleReport []) = some true :=
  (all_findings_pass_verification_true [("a.py", [(1, 3)])] (sampleReport [])).1 rfl

/-- C6: the verification loop's boolean is invariant under permutation of
the findings, and it is `False` exactly when at least one finding fails
(missing file, or range not contained in any stored block of its file). -/
theorem verification_permutation_invariant
    (cf : List (String × List (Int × Int)))
    (fs₁ fs₂ : List (String × Int × Int)) (hperm : List.Perm fs₁ fs₂) :
    verifyFindings cf fs₁ = verifyFindings cf fs₂ ∧
    (verifyFindings cf fs₁ = false ↔ ∃ f ∈ fs₁, findingFails cf f) := by
  constructor
  · rw [verifyFindings_eq_all, verifyFindings_eq_all, Bool.eq_iff_iff]
    simp only [List.all_eq_true]
    constructor
    · intro h f hf
      exact h f (hperm.mem_iff.mpr hf)
    · intro h f hf
      exact h f (hperm.mem_iff.mp hf)
  · rw [verifyFindings_eq_all, List.all_eq_false]
    constructor
    · rintro ⟨f, hf, hfail⟩
      exact ⟨f, hf, (checkOne_eq_false_iff cf f).mp (by simpa using hfail)⟩
    · rintro ⟨f, hf, hfail⟩
      exact ⟨f, hf, by simp [(checkOne_eq_false_iff cf f).mpr hfail]⟩

theorem verification_permutation_invariant_witness :
    verifyFindings [("a.py", [(1, 3)])] [("a.py", 1, 2), ("b.py", 3, 4)]
      = verifyFindings [("a.py", [(1, 3)])] [("b.py", 3, 4), ("a.py", 1, 2)] ∧
    (verifyFindings [("a.py", [(1, 3)])] [("a.py", 1, 2), ("b.py", 3, 4)] = false ↔
      ∃ f ∈ [("a.py", (1 : Int), (2 : Int)), ("b.py", 3, 4)],
        findingFails [("a.py", [(1, 3)])] f) :=
  verification_permutation_invariant [("a.py", [(1, 3)])]
    [("a.py", 1, 2), ("b.py", 3, 4)] [("b.py", 3, 4), ("a.py", 1, 2)] (by decide)

/-- C7: a structural-lookup failure in the report is not caught: a report
with no `runs` key never produces a boolean verdict (the `KeyError`
propagates, modelled as `none`), and likewise a location missing
`physicalLocation`. -/
theorem malformed_report_aborts
    (cf : List (String × List (Int × Int))) (report : Json)
    (h : jLookup report "runs" = none) :
    verify cf report = none ∧
    verify [("a.py", [(1, 3)])] (sampleReport [Json.obj []]) = none := by
  refine ⟨?_, rfl⟩
  simp [verify, snykResults, h]

theorem malformed_report_aborts_witness :
    verify [] (Json.obj []) = none ∧
    verify [("a.py", [(1, 3)])] (sampleReport [Json.obj []]) = none :=
  malformed_report_aborts [] (Json.obj []) rfl

end IsSnykFor
